import Mathlib

/-!
Verification of the finlist-backend ingestion pipeline.

Shallow embedding of `src/crawler.py` and `src/database.py`:
strings are lists of characters, the article store is a list of stored
records, and the external collaborators (embedding provider, research
provider, vector-search RPC) are function parameters.  Store reads and
writes performed by the pipeline are recorded in an explicit call trace
so that "no store access" claims are statements about the trace.
-/

namespace Finlist

/-- Strings, modelled as lists of characters (Python `str`). -/
abbrev Str := List Char

/-- Python `str.strip()`: drop whitespace from both ends. -/
def strip (s : Str) : Str :=
  ((s.dropWhile Char.isWhitespace).reverse.dropWhile Char.isWhitespace).reverse

/-- Python `str.split('\n')`: split on newline; always returns at least one
(possibly empty) line. -/
def split_newline : Str → List Str
  | [] => [[]]
  | c :: rest =>
    match split_newline rest with
    | [] => [[]]
    | l :: ls => if c = '\n' then [] :: l :: ls else (c :: l) :: ls

/-- Python `title.replace('#', '')`: remove every hash character. -/
def remove_hash (s : Str) : Str := s.filter (fun c => c ≠ '#')

/-- Python `str.title()` used for unknown sector keys: uppercase a letter
that does not follow a letter, lowercase a letter that does. -/
def py_titlecase_aux : Str → Bool → Str
  | [], _ => []
  | c :: rest, prevAlpha =>
    (if c.isAlpha then (if prevAlpha then c.toLower else c.toUpper) else c)
      :: py_titlecase_aux rest c.isAlpha

def py_titlecase (s : Str) : Str := py_titlecase_aux s false

/-- One entry of the `SECTORS` registry in `crawler.py`. -/
structure SectorInfo where
  name : String
  topics : String
deriving DecidableEq

/-- The `SECTORS` registry: an insertion-ordered table (the commented-out
sectors of the source are absent). -/
def SECTORS : List (String × SectorInfo) :=
  [("technology",
    { name := "Technology",
      topics := "AI, machine learning, semiconductors, cloud computing, cybersecurity, fintech" }),
   ("finance",
    { name := "Finance",
      topics := "fintech, digital banking, cryptocurrency, blockchain, investment trends" })]

/-- Python `SECTORS.get(sector)`. -/
def SECTORS_get (k : String) : Option SectorInfo :=
  (SECTORS.find? (fun p => decide (p.1 = k))).map Prod.snd

/-- The rotation order `self.sector_keys = list(SECTORS.keys())`. -/
def sector_keys : List String := SECTORS.map Prod.fst

/-- Python `SECTORS.get(sector, {}).get('name', sector.title())`. -/
def sector_display_name (sector : String) : Str :=
  match SECTORS_get sector with
  | some info => info.name.toList
  | none => py_titlecase sector.toList

/-- Truncation applied to the processed title:
`title[:497] + "..."` when `len(title) > 500`. -/
def truncate_title (t : Str) : Str :=
  if t.length > 500 then t.take 497 ++ "...".toList else t

/-- The fallback title
`f"{name} Sector Analysis - {date}"` used when the first line is blank. -/
def fallback_title (sector : String) (today : Str) : Str :=
  sector_display_name sector ++ " Sector Analysis - ".toList ++ today

/-- The article dictionary produced by the builder and consumed by the
pipeline; `Option` marks key presence (Python `field in article`). -/
structure ArticleDict where
  title : Option Str
  content : Option Str
  author : Option Str
  category : Option Str
  source_url : Option Str
  published_date : Option Str
deriving DecidableEq

/-- Embedding of `ArticleCrawler._convert_report_to_article(report, sector)`.
The clock read `get_current_date()` is passed in as `today`.
The body raises no exception on any input, so the `except` branch
returning `None` is unreachable; the result is always `some`. -/
def convert_report_to_article (report : Str) (sector : String) (today : Str) :
    Option ArticleDict :=
  let lines := split_newline (strip report)
  let title0 :=
    match lines with
    | l :: _ => if strip l ≠ [] then l else fallback_title sector today
    | [] => fallback_title sector today
  let title := truncate_title (strip (remove_hash title0))
  some
    { title := some title
      content := some (strip report)
      author := some "AI Research Assistant".toList
      category := some (sector_display_name sector)
      source_url := some "Generated by GPT Researcher".toList
      published_date := some today }

/-- A record as stored by Supabase: exactly the keys the pipeline puts into
`article_data` plus the computed embedding.  `published_date` is kept as an
optional field so that its absence from persisted records is expressible. -/
structure StoredArticle where
  title : Str
  content : Str
  author : Str
  category : Str
  source_url : Option Str
  published_date : Option Str
  embeddings : List Int
deriving DecidableEq

/-- External calls the pipeline makes, in order: store reads, embedding
computations, store writes. -/
inductive ExtCall where
  | lookupTitle (t : Str)
  | embedCall (text : Str)
  | insert (r : StoredArticle)
deriving DecidableEq

/-- The embedding provider (`DatabaseManager.generate_embeddings`);
`none` models the provider raising. -/
abbrev EmbedFn := Str → Option (List Int)

/-- Embedding of `DatabaseManager.get_article_by_title(title, exact_match=True)`:
first stored record whose title is exactly `t`. -/
def get_article_by_title (store : List StoredArticle) (t : Str) :
    Option StoredArticle :=
  store.find? (fun r => decide (r.title = t))

/-- The `article_data` dict built at crawler.py:168-176: the four required
fields plus `source_url` when present.  `published_date` is not copied. -/
structure ArticleData where
  title : Str
  content : Str
  author : Str
  category : Str
  source_url : Option Str
deriving DecidableEq

/-- The record `create_article` inserts: `article_data` plus `embeddings`.
No `published_date` key is ever set. -/
def new_record (ad : ArticleData) (v : List Int) : StoredArticle :=
  { title := ad.title, content := ad.content, author := ad.author,
    category := ad.category, source_url := ad.source_url,
    published_date := none, embeddings := v }

/-- Embedding of `DatabaseManager.create_article(article_data)`: embed
`f"{title} {content}"`, then insert.  A provider fault raises out of
`generate_embeddings`, modelled as the `none` result; the store write
itself is modelled as reliable (the insert returns the inserted row). -/
def create_article (embed : EmbedFn) (ad : ArticleData)
    (store : List StoredArticle) :
    Option (StoredArticle × List StoredArticle) × List ExtCall :=
  let text := ad.title ++ [' '] ++ ad.content
  match embed text with
  | none => (none, [ExtCall.embedCall text])
  | some v =>
    let r := new_record ad v
    (some (r, store ++ [r]), [ExtCall.embedCall text, ExtCall.insert r])

/-- Observable outcome of processing one article, one per logging branch of
the loop body in `process_and_save_articles`. -/
inductive IngestOutcome where
  | saved (r : StoredArticle)
  | skippedMissingFields
  | skippedDuplicate
  | failed
deriving DecidableEq

structure IngestResult where
  store : List StoredArticle
  saved_count : Nat
  outcome : IngestOutcome
  calls : List ExtCall
deriving DecidableEq

/-- One iteration of the loop in
`ArticleCrawler.process_and_save_articles`: required-field check, then
exact-title dedup lookup, then `create_article`.  An exception raised by
the embedding provider is caught by the surrounding `except` and the loop
continues with nothing written. -/
def ingest_one (embed : EmbedFn) (a : ArticleDict)
    (store : List StoredArticle) : IngestResult :=
  match a.title, a.content, a.author, a.category with
  | some t, some c, some au, some cat =>
    match get_article_by_title store t with
    | some _ => ⟨store, 0, .skippedDuplicate, [.lookupTitle t]⟩
    | none =>
      let ad : ArticleData :=
        { title := t, content := c, author := au, category := cat,
          source_url := a.source_url }
      match create_article embed ad store with
      | (some (r, store'), calls) =>
        ⟨store', 1, .saved r, .lookupTitle t :: calls⟩
      | (none, calls) => ⟨store, 0, .failed, .lookupTitle t :: calls⟩
  | _, _, _, _ => ⟨store, 0, .skippedMissingFields, []⟩

/-- Embedding of `ArticleCrawler.process_and_save_articles(articles)`: sequential
per-article processing; returns the final store and `saved_count`. -/
def process_and_save_articles (embed : EmbedFn) :
    List ArticleDict → List StoredArticle → List StoredArticle × Nat
  | [], store => (store, 0)
  | a :: rest, store =>
    let r := ingest_one embed a store
    let q := process_and_save_articles embed rest r.store
    (q.1, r.saved_count + q.2)

/-- Embedding of `ArticleCrawler.crawl_for_articles(sector)`: the research provider
produces a report (or raises / is absent: `none`, caught and turned into
`[]`); a produced report is converted and wrapped in a singleton list. -/
def crawl_for_articles (research : String → Option Str) (today : Str)
    (sector : String) : List ArticleDict :=
  match research sector with
  | none => []
  | some report =>
    match convert_report_to_article report sector today with
    | some a => [a]
    | none => []

/-- The per-sector loop of `ArticleCrawler.run_crawling_cycle_all_sectors`:
for each sector in order, crawl, then (when articles were found) process
and save; accumulates the total and a per-sector breakdown of the
`saved_count` values the loop reports.  The `asyncio.sleep(30)` pacing
delay between sectors has no effect on store or counts. -/
def run_sectors (research : String → Option Str) (embed : EmbedFn)
    (today : Str) :
    List String → List StoredArticle →
      List StoredArticle × Nat × List (String × Nat)
  | [], store => (store, 0, [])
  | sec :: rest, store =>
    let arts := crawl_for_articles research today sec
    let p :=
      if arts.isEmpty then (store, 0)
      else process_and_save_articles embed arts store
    let q := run_sectors research embed today rest p.1
    (q.1, p.2 + q.2.1, (sec, p.2) :: q.2.2)

/-- Embedding of `ArticleCrawler.run_crawling_cycle_all_sectors()`: iterate the whole
registry, report the total saved. -/
def run_crawling_cycle_all_sectors (research : String → Option Str)
    (embed : EmbedFn) (today : Str) (store : List StoredArticle) :
    List StoredArticle × Nat :=
  let q := run_sectors research embed today sector_keys store
  (q.1, q.2.1)

/-! ### Scheduler loop (`ArticleCrawler.start_periodic_crawling` / `stop_crawling`)

The cooperative loop `while self.is_running: <cycle>; await sleep(interval)`
is modelled as a labelled transition system.  The program counter records
where the coroutine is suspended; `stop_crawling` (setting
`self.is_running = False`) may interleave at any point.  The `is_running`
flag is only read at the top of the loop. -/

inductive PC where
  | check
  | cycle
  | sleeping
  | done
deriving DecidableEq

structure SchedState where
  is_running : Bool
  pc : PC
deriving DecidableEq

inductive SchedLabel where
  | beginCycle
  | finishCycle
  | wake
  | exitLoop
  | stopSignal
deriving DecidableEq

/-- Small-step semantics of the scheduling loop.  The flag is checked only
at `PC.check`; a cycle in progress runs to completion unconditionally; the
inter-cycle sleep completes back to the check; `stopSignal` is the external
`stop_crawling()` call clearing the flag from any suspension point. -/
inductive SchedStep : SchedState → SchedLabel → SchedState → Prop where
  | beginCycle (s : SchedState) (hpc : s.pc = PC.check)
      (hrun : s.is_running = true) :
      SchedStep s SchedLabel.beginCycle { s with pc := PC.cycle }
  | finishCycle (s : SchedState) (hpc : s.pc = PC.cycle) :
      SchedStep s SchedLabel.finishCycle { s with pc := PC.sleeping }
  | wake (s : SchedState) (hpc : s.pc = PC.sleeping) :
      SchedStep s SchedLabel.wake { s with pc := PC.check }
  | exitLoop (s : SchedState) (hpc : s.pc = PC.check)
      (hrun : s.is_running = false) :
      SchedStep s SchedLabel.exitLoop { s with pc := PC.done }
  | stopSignal (s : SchedState) :
      SchedStep s SchedLabel.stopSignal { s with is_running := false }

/-- Finite executions of the loop, recording the trace of labels. -/
inductive SchedExec : SchedState → List SchedLabel → SchedState → Prop where
  | nil (s : SchedState) : SchedExec s [] s
  | cons {s s' s'' : SchedState} {l : SchedLabel} {tr : List SchedLabel}
      (hstep : SchedStep s l s') (hrest : SchedExec s' tr s'') :
      SchedExec s (l :: tr) s''

/-! ### Hybrid search (`DatabaseManager.hybrid_search`) -/

/-- The parameter dict passed to the `hybrid_search_articles` RPC:
`category_filter` is included only when `category` is truthy. -/
structure HybridParams where
  query_embedding : List Int
  match_threshold : ℚ
  match_count : Nat
  category_filter : Option Str
deriving DecidableEq

/-- Embedding of `DatabaseManager.hybrid_search(query, category, limit)`: embed the
query (the provider may raise: `none`), build the parameter dict — the
category filter is added only for a truthy (non-`None`, non-empty)
category — and return the RPC's rows.  The per-row datetime/embedding
conversions only reformat values and are identities in this model. -/
def hybrid_search (embed : EmbedFn) (rpc : HybridParams → List StoredArticle)
    (query : Str) (category : Option Str) (limit : Nat) :
    Option (List StoredArticle) :=
  match embed query with
  | none => none
  | some qe =>
    let params : HybridParams :=
      { query_embedding := qe
        match_threshold := 78 / 100
        match_count := limit
        category_filter :=
          match category with
          | some c => if c ≠ [] then some c else none
          | none => none }
    some (rpc params)

/-! ### Derived notions and concrete fixtures -/

/-- The dedup invariant: at most one stored record per exact title. -/
def dedup_inv (store : List StoredArticle) : Prop :=
  ∀ t : Str, (store.filter (fun r => decide (r.title = t))).length ≤ 1

/-- An embedding provider that always succeeds with the vector `[1]`. -/
def embed_one : EmbedFn := fun _ => some [1]

/-- A concrete article dictionary with all required keys present. -/
def sample_article : ArticleDict :=
  { title := some "T".toList, content := some "body".toList,
    author := some "A".toList, category := some "Technology".toList,
    source_url := some "u".toList, published_date := some "d".toList }

/-- A concrete article dictionary whose four required keys are present but
hold empty strings. -/
def empty_fields_article : ArticleDict :=
  { title := some [], content := some [], author := some [],
    category := some [], source_url := none, published_date := none }

/-- A research provider that fails on `technology` and produces a fixed
report for every other sector. -/
def research_fail_tech : String → Option Str := fun s =>
  if s = "technology" then none else some "Fin title\nbody".toList

/-- An embedding provider that always raises. -/
def embed_fail : EmbedFn := fun _ => none

/-- The record the pipeline persists for `sample_article` under
`embed_one`. -/
def sample_record : StoredArticle :=
  new_record ⟨"T".toList, "body".toList, "A".toList, "Technology".toList,
    some "u".toList⟩ [1]

/-- The article the builder produces from the report
`"Apple Earnings Beat\nbody"` on 2024-05-01. -/
def apple_article : ArticleDict :=
  { title := some "Apple Earnings Beat".toList,
    content := some "Apple Earnings Beat\nbody".toList,
    author := some "AI Research Assistant".toList,
    category := some "Technology".toList,
    source_url := some "Generated by GPT Researcher".toList,
    published_date := some "2024-05-01".toList }

/-! ### Helper lemmas about single-article ingestion -/

theorem strip_nil : strip [] = [] := rfl

theorem ingest_one_missing (embed : EmbedFn) (a : ArticleDict)
    (store : List StoredArticle)
    (h : a.title = none ∨ a.content = none ∨ a.author = none ∨
      a.category = none) :
    ingest_one embed a store = ⟨store, 0, .skippedMissingFields, []⟩ := by
  rcases a with ⟨t, c, au, cat, su, pd⟩
  cases t <;> cases c <;> cases au <;> cases cat <;> simp_all [ingest_one]

theorem ingest_one_dup (embed : EmbedFn) (a : ArticleDict)
    (store : List StoredArticle) (t c au cat : Str) (e : StoredArticle)
    (ht : a.title = some t) (hc : a.content = some c)
    (hau : a.author = some au) (hcat : a.category = some cat)
    (hdup : get_article_by_title store t = some e) :
    ingest_one embed a store = ⟨store, 0, .skippedDuplicate, [.lookupTitle t]⟩ := by
  rcases a with ⟨t', c', au', cat', su, pd⟩
  simp_all [ingest_one]

theorem ingest_one_fresh (embed : EmbedFn) (a : ArticleDict)
    (store : List StoredArticle) (t c au cat : Str) (v : List Int)
    (ht : a.title = some t) (hc : a.content = some c)
    (hau : a.author = some au) (hcat : a.category = some cat)
    (hdup : get_article_by_title store t = none)
    (hv : embed (t ++ [' '] ++ c) = some v) :
    ingest_one embed a store =
      ⟨store ++ [new_record ⟨t, c, au, cat, a.source_url⟩ v], 1,
        .saved (new_record ⟨t, c, au, cat, a.source_url⟩ v),
        [.lookupTitle t, .embedCall (t ++ [' '] ++ c),
          .insert (new_record ⟨t, c, au, cat, a.source_url⟩ v)]⟩ := by
  rcases a with ⟨t', c', au', cat', su, pd⟩
  simp_all [ingest_one, create_article]

theorem ingest_one_embed_fail (embed : EmbedFn) (a : ArticleDict)
    (store : List StoredArticle) (t c au cat : Str)
    (ht : a.title = some t) (hc : a.content = some c)
    (hau : a.author = some au) (hcat : a.category = some cat)
    (hdup : get_article_by_title store t = none)
    (hv : embed (t ++ [' '] ++ c) = none) :
    ingest_one embed a store =
      ⟨store, 0, .failed,
        [.lookupTitle t, .embedCall (t ++ [' '] ++ c)]⟩ := by
  rcases a with ⟨t', c', au', cat', su, pd⟩
  simp_all [ingest_one, create_article]

/-- The store after one ingestion step is either unchanged or extended by a
single freshly-titled record built by `new_record`. -/
theorem ingest_one_store_shape (embed : EmbedFn) (a : ArticleDict)
    (store : List StoredArticle) :
    (ingest_one embed a store).store = store ∨
    ∃ ad v, get_article_by_title store ad.title = none ∧
      (ingest_one embed a store).store = store ++ [new_record ad v] := by
  rcases a with ⟨t, c, au, cat, su, pd⟩
  cases t with
  | none => left; simp [ingest_one]
  | some t =>
    cases c with
    | none => left; simp [ingest_one]
    | some c =>
      cases au with
      | none => left; simp [ingest_one]
      | some au =>
        cases cat with
        | none => left; simp [ingest_one]
        | some cat =>
          cases hdup : get_article_by_title store t with
          | some e => left; simp [ingest_one, hdup]
          | none =>
            cases hv : embed (t ++ [' '] ++ c) with
            | none =>
              left
              simp only [List.append_assoc, List.singleton_append] at hv
              simp [ingest_one, create_article, hdup, hv]
            | some v =>
              right
              refine ⟨⟨t, c, au, cat, su⟩, v, hdup, ?_⟩
              simp only [List.append_assoc, List.singleton_append] at hv
              simp [ingest_one, create_article, hdup, hv, new_record]

theorem filter_title_eq_nil (store : List StoredArticle) (t : Str)
    (h : get_article_by_title store t = none) :
    store.filter (fun r => decide (r.title = t)) = [] := by
  rw [get_article_by_title, List.find?_eq_none] at h
  rw [List.filter_eq_nil_iff]
  intro r hr
  exact h r hr

theorem dedup_inv_append (store : List StoredArticle) (r : StoredArticle)
    (h : dedup_inv store)
    (hnone : get_article_by_title store r.title = none) :
    dedup_inv (store ++ [r]) := by
  intro t
  rw [List.filter_append, List.length_append]
  by_cases ht : r.title = t
  · have hnil := filter_title_eq_nil store t (ht ▸ hnone)
    simp [hnil, List.filter, ht]
  · have h1 := h t
    simp only [List.filter, ht, decide_eq_true_eq, if_neg]
    simp [ht]
    omega

theorem ingest_one_preserves_inv (embed : EmbedFn) (a : ArticleDict)
    (store : List StoredArticle) (h : dedup_inv store) :
    dedup_inv (ingest_one embed a store).store := by
  rcases ingest_one_store_shape embed a store with hs | ⟨ad, v, hnone, hs⟩
  · rw [hs]; exact h
  · rw [hs]; exact dedup_inv_append store (new_record ad v) h hnone

theorem process_preserves_inv (embed : EmbedFn) (arts : List ArticleDict)
    (store : List StoredArticle) (h : dedup_inv store) :
    dedup_inv (process_and_save_articles embed arts store).1 := by
  induction arts generalizing store with
  | nil => exact h
  | cons a rest ih =>
    simp only [process_and_save_articles]
    exact ih _ (ingest_one_preserves_inv embed a store h)

/-! ### Claim theorems -/

/-- C1: ingestion is idempotent on title.  On a store with no record of the
article's exact title (and a responsive embedding provider) a first
ingestion appends exactly one record with that title; an ingestion of an
article with an identical already-stored title is skipped as a duplicate
with no insert and an unchanged store; and sequential ingestion of any
article list preserves the invariant that at most one stored record exists
per exact title. -/
theorem C1_title_idempotence :
    (∀ (embed : EmbedFn) (a : ArticleDict) (store : List StoredArticle)
        (t c au cat : Str) (v : List Int),
        a.title = some t → a.content = some c → a.author = some au →
        a.category = some cat →
        get_article_by_title store t = none →
        embed (t ++ [' '] ++ c) = some v →
        (ingest_one embed a store).store =
          store ++ [new_record ⟨t, c, au, cat, a.source_url⟩ v] ∧
        (ingest_one embed a store).saved_count = 1 ∧
        ((ingest_one embed a store).store.filter
          (fun r => decide (r.title = t))).length = 1) ∧
    (∀ (embed : EmbedFn) (a : ArticleDict) (store : List StoredArticle)
        (t c au cat : Str) (e : StoredArticle),
        a.title = some t → a.content = some c → a.author = some au →
        a.category = some cat →
        get_article_by_title store t = some e →
        ingest_one embed a store =
          ⟨store, 0, .skippedDuplicate, [.lookupTitle t]⟩) ∧
    (∀ (embed : EmbedFn) (arts : List ArticleDict)
        (store : List StoredArticle),
        dedup_inv store →
        dedup_inv (process_and_save_articles embed arts store).1) := by
  refine ⟨?_, ?_, ?_⟩
  · intro embed a store t c au cat v ht hc hau hcat hdup hv
    have h := ingest_one_fresh embed a store t c au cat v ht hc hau hcat
      hdup hv
    rw [h]
    refine ⟨rfl, rfl, ?_⟩
    rw [List.filter_append, List.length_append,
      filter_title_eq_nil store t hdup]
    simp [new_record]
  · intro embed a store t c au cat e ht hc hau hcat hdup
    exact ingest_one_dup embed a store t c au cat e ht hc hau hcat hdup
  · exact process_preserves_inv

theorem C1_title_idempotence_witness :
    (ingest_one embed_one sample_article []).saved_count = 1 ∧
    ((ingest_one embed_one sample_article []).store.filter
      (fun r => decide (r.title = "T".toList))).length = 1 ∧
    ingest_one embed_one sample_article [sample_record] =
      ⟨[sample_record], 0, .skippedDuplicate, [.lookupTitle "T".toList]⟩ ∧
    ((process_and_save_articles embed_one [sample_article, sample_article]
      []).1.filter (fun r => decide (r.title = "T".toList))).length ≤ 1 := by
  refine ⟨?_, ?_, ?_, ?_⟩
  · exact (C1_title_idempotence.1 embed_one sample_article [] "T".toList
      "body".toList "A".toList "Technology".toList [1]
      rfl rfl rfl rfl rfl rfl).2.1
  · exact (C1_title_idempotence.1 embed_one sample_article [] "T".toList
      "body".toList "A".toList "Technology".toList [1]
      rfl rfl rfl rfl rfl rfl).2.2
  · exact C1_title_idempotence.2.1 embed_one sample_article [sample_record]
      "T".toList "body".toList "A".toList "Technology".toList sample_record
      rfl rfl rfl rfl (by decide)
  · exact C1_title_idempotence.2.2 embed_one
      [sample_article, sample_article] [] (fun t => by simp) "T".toList

/-- C5: an article missing any required field of
title, content, author, category is skipped with the missing-fields
outcome and performs no store access at all: the call trace is empty (no
dedup lookup, no insert), the store is unchanged and nothing is saved. -/
theorem C5_missing_fields_no_store_access (embed : EmbedFn)
    (a : ArticleDict) (store : List StoredArticle)
    (h : a.title = none ∨ a.content = none ∨ a.author = none ∨
      a.category = none) :
    ingest_one embed a store = ⟨store, 0, .skippedMissingFields, []⟩ :=
  ingest_one_missing embed a store h

theorem C5_missing_fields_witness :
    ingest_one embed_one { sample_article with author := none } [] =
      ⟨[], 0, .skippedMissingFields, []⟩ :=
  C5_missing_fields_no_store_access embed_one
    { sample_article with author := none } [] (Or.inr (Or.inr (Or.inl rfl)))

/-- C6: for an article that passes validation and the dedup lookup, the
embedding is computed via the provider over exactly
title ++ " " ++ content, and the store write happens only after that call
succeeds; when the provider fails the article is not written and the store
is unchanged. -/
theorem C6_embedding_gate (embed : EmbedFn) (a : ArticleDict)
    (store : List StoredArticle) (t c au cat : Str)
    (ht : a.title = some t) (hc : a.content = some c)
    (hau : a.author = some au) (hcat : a.category = some cat)
    (hdup : get_article_by_title store t = none) :
    (embed (t ++ [' '] ++ c) = none →
      ingest_one embed a store =
        ⟨store, 0, .failed,
          [.lookupTitle t, .embedCall (t ++ [' '] ++ c)]⟩) ∧
    (∀ v, embed (t ++ [' '] ++ c) = some v →
      ingest_one embed a store =
        ⟨store ++ [new_record ⟨t, c, au, cat, a.source_url⟩ v], 1,
          .saved (new_record ⟨t, c, au, cat, a.source_url⟩ v),
          [.lookupTitle t, .embedCall (t ++ [' '] ++ c),
            .insert (new_record ⟨t, c, au, cat, a.source_url⟩ v)]⟩) :=
  ⟨fun hv => ingest_one_embed_fail embed a store t c au cat
      ht hc hau hcat hdup hv,
    fun v hv => ingest_one_fresh embed a store t c au cat v
      ht hc hau hcat hdup hv⟩

theorem C6_embedding_gate_witness :
    ingest_one embed_fail sample_article [] =
      ⟨[], 0, .failed,
        [.lookupTitle "T".toList,
          .embedCall ("T".toList ++ [' '] ++ "body".toList)]⟩ :=
  (C6_embedding_gate embed_fail sample_article [] "T".toList "body".toList
    "A".toList "Technology".toList rfl rfl rfl rfl rfl).1 rfl

/-- C10: validation checks key presence only.  An article whose four
required keys are present but hold empty strings passes validation,
undergoes the exact-title dedup lookup on the empty title, and when no
stored record has the empty title it is inserted, so a record with empty
title and content is persisted. -/
theorem C10_empty_values_pass_validation (embed : EmbedFn)
    (a : ArticleDict) (store : List StoredArticle) (v : List Int)
    (ht : a.title = some []) (hc : a.content = some [])
    (hau : a.author = some []) (hcat : a.category = some [])
    (hdup : get_article_by_title store [] = none)
    (hv : embed [' '] = some v) :
    ingest_one embed a store =
      ⟨store ++ [new_record ⟨[], [], [], [], a.source_url⟩ v], 1,
        .saved (new_record ⟨[], [], [], [], a.source_url⟩ v),
        [.lookupTitle [], .embedCall [' '],
          .insert (new_record ⟨[], [], [], [], a.source_url⟩ v)]⟩ :=
  ingest_one_fresh embed a store [] [] [] [] v ht hc hau hcat hdup hv

theorem C10_empty_values_witness :
    ingest_one embed_one empty_fields_article [] =
      ⟨[new_record ⟨[], [], [], [], none⟩ [1]], 1,
        .saved (new_record ⟨[], [], [], [], none⟩ [1]),
        [.lookupTitle [], .embedCall [' '],
          .insert (new_record ⟨[], [], [], [], none⟩ [1])]⟩ :=
  C10_empty_values_pass_validation embed_one empty_fields_article [] [1]
    rfl rfl rfl rfl rfl rfl

/-- C2 counterexample: on the empty report the builder does NOT return
`none`; it returns an article with the fallback title
"Technology Sector Analysis - <date>" and empty content. -/
theorem C2_counterexample :
    convert_report_to_article [] "technology" "2024-05-01".toList =
      some { title := some "Technology Sector Analysis - 2024-05-01".toList,
             content := some [],
             author := some "AI Research Assistant".toList,
             category := some "Technology".toList,
             source_url := some "Generated by GPT Researcher".toList,
             published_date := some "2024-05-01".toList } := by
  decide

/-- C2 amended: on a report that is empty or whitespace-only (empty after
trimming) the builder does not throw and does not return null: it returns
an article whose title falls back to
"{sector display name} Sector Analysis - {today}" and whose content is the
empty string. -/
theorem C2_empty_report_fallback (report : Str) (sector : String)
    (today : Str) (h : strip report = []) :
    convert_report_to_article report sector today =
      some { title := some (truncate_title (strip (remove_hash
               (fallback_title sector today)))),
             content := some [],
             author := some "AI Research Assistant".toList,
             category := some (sector_display_name sector),
             source_url := some "Generated by GPT Researcher".toList,
             published_date := some today } := by
  simp [convert_report_to_article, h, split_newline, strip_nil]

theorem C2_empty_report_witness :
    convert_report_to_article "  \t ".toList "finance" "2024-05-01".toList =
      some { title := some (truncate_title (strip (remove_hash
               (fallback_title "finance" "2024-05-01".toList)))),
             content := some [],
             author := some "AI Research Assistant".toList,
             category := some (sector_display_name "finance"),
             source_url := some "Generated by GPT Researcher".toList,
             published_date := some "2024-05-01".toList } :=
  C2_empty_report_fallback "  \t ".toList "finance" "2024-05-01".toList
    (by decide)

/-- C3 counterexample: the builder stamps the generation date on the
article, but the record the pipeline persists for it carries no
`published_date` (the field is not copied into `article_data`). -/
theorem C3_counterexample :
    convert_report_to_article "Apple Earnings Beat\nbody".toList
      "technology" "2024-05-01".toList = some apple_article ∧
    apple_article.published_date = some "2024-05-01".toList ∧
    (process_and_save_articles embed_one [apple_article] []).1.map
      StoredArticle.published_date = [none] := by
  refine ⟨by decide, rfl, by decide⟩

/-- C3 amended: the builder stamps `published_date` equal to the generation
date on the article it produces, but the ingestion pipeline omits the
field from the persisted record: every record the pipeline adds to the
store has no `published_date`. -/
theorem C3_published_date_not_persisted :
    (∀ (report : Str) (sector : String) (today : Str) (a : ArticleDict),
        convert_report_to_article report sector today = some a →
        a.published_date = some today) ∧
    (∀ (embed : EmbedFn) (arts : List ArticleDict)
        (store : List StoredArticle) (r : StoredArticle),
        r ∈ (process_and_save_articles embed arts store).1 →
        r ∈ store ∨ r.published_date = none) := by
  constructor
  · intro report sector today a h
    simp only [convert_report_to_article, Option.some.injEq] at h
    subst h
    rfl
  · intro embed arts store r
    induction arts generalizing store with
    | nil => intro h; exact Or.inl h
    | cons a rest ih =>
      intro h
      simp only [process_and_save_articles] at h
      rcases ih _ h with hmem | hpd
      · rcases ingest_one_store_shape embed a store with hs | ⟨ad, v, _, hs⟩
        · rw [hs] at hmem; exact Or.inl hmem
        · rw [hs] at hmem
          rcases List.mem_append.mp hmem with h1 | h2
          · exact Or.inl h1
          · right
            have h3 : r = new_record ad v := by simpa using h2
            rw [h3]; rfl
      · exact Or.inr hpd

theorem C3_published_date_witness :
    apple_article.published_date = some "2024-05-01".toList ∧
    (sample_record ∈ ([] : List StoredArticle) ∨
      sample_record.published_date = none) :=
  ⟨C3_published_date_not_persisted.1 "Apple Earnings Beat\nbody".toList
      "technology" "2024-05-01".toList apple_article (by decide),
    C3_published_date_not_persisted.2 embed_one [sample_article] []
      sample_record (by decide)⟩

/-- C4: when the first line of the report, after hash-marker removal and
trimming, is longer than 500 characters, the built title is exactly the
first 497 characters of it followed by "..." and has length 500. -/
theorem C4_long_title_truncated (report : Str) (sector : String)
    (today : Str) (l : Str) (rest : List Str)
    (hsplit : split_newline (strip report) = l :: rest)
    (hne : strip l ≠ [])
    (hlong : 500 < (strip (remove_hash l)).length) :
    ∃ a, convert_report_to_article report sector today = some a ∧
      a.title = some ((strip (remove_hash l)).take 497 ++ "...".toList) ∧
      ((strip (remove_hash l)).take 497 ++ "...".toList).length = 500 := by
  have htitle : truncate_title (strip (remove_hash l)) =
      (strip (remove_hash l)).take 497 ++ "...".toList := by
    simp [truncate_title, hlong]
  refine ⟨{ title := some ((strip (remove_hash l)).take 497 ++ "...".toList),
            content := some (strip report),
            author := some "AI Research Assistant".toList,
            category := some (sector_display_name sector),
            source_url := some "Generated by GPT Researcher".toList,
            published_date := some today }, ?_, rfl, ?_⟩
  · simp [convert_report_to_article, hsplit, hne, htitle]
  · have h3 : ("...".toList).length = 3 := rfl
    rw [List.length_append, List.length_take, h3]
    omega

set_option maxRecDepth 20000 in
theorem C4_long_title_witness :
    ∃ a, convert_report_to_article (List.replicate 600 'a') "technology"
        "2024-05-01".toList = some a ∧
      a.title = some ((strip (remove_hash (List.replicate 600 'a'))).take 497
        ++ "...".toList) ∧
      ((strip (remove_hash (List.replicate 600 'a'))).take 497
        ++ "...".toList).length = 500 :=
  C4_long_title_truncated (List.replicate 600 'a') "technology"
    "2024-05-01".toList (List.replicate 600 'a') [] (by decide) (by decide)
    (by decide)

/-- C7: the all-sectors run visits every sector of the given registry in
fixed insertion order exactly once (the per-sector breakdown lists exactly
the sectors, in iteration order), the reported total equals the sum of the
per-sector saved counts, and a sector whose research call fails (the
exception is caught and yields no articles) contributes zero saved
articles without stopping iteration over the remaining sectors. -/
theorem C7_run_all_sectors (research : String → Option Str)
    (embed : EmbedFn) (today : Str) :
    (∀ (secs : List String) (store : List StoredArticle),
        (run_sectors research embed today secs store).2.2.map Prod.fst =
          secs ∧
        (run_sectors research embed today secs store).2.1 =
          ((run_sectors research embed today secs store).2.2.map
            Prod.snd).sum) ∧
    (∀ (secs : List String) (store : List StoredArticle) (sec : String)
        (n : Nat),
        (sec, n) ∈ (run_sectors research embed today secs store).2.2 →
        research sec = none → n = 0) ∧
    (∀ store : List StoredArticle,
        (run_crawling_cycle_all_sectors research embed today store).2 =
          (run_sectors research embed today sector_keys store).2.1) := by
  refine ⟨?_, ?_, ?_⟩
  · intro secs
    induction secs with
    | nil => intro store; simp [run_sectors]
    | cons sec rest ih =>
      intro store
      simp only [run_sectors, List.map_cons, List.sum_cons]
      exact ⟨by rw [List.cons.injEq]; exact ⟨rfl, (ih _).1⟩,
        by rw [(ih _).2]⟩
  · intro secs
    induction secs with
    | nil => intro store sec n h hres; simp [run_sectors] at h
    | cons sec0 rest ih =>
      intro store sec n h hres
      simp only [run_sectors, List.mem_cons] at h
      rcases h with h | h
      · rw [Prod.mk.injEq] at h
        obtain ⟨hsec, hn⟩ := h
        subst hsec
        have hcr : crawl_for_articles research today sec = [] := by
          simp [crawl_for_articles, hres]
        rw [hcr] at hn
        simpa using hn
      · exact ih _ _ _ h hres
  · intro store
    rfl

theorem C7_run_all_sectors_witness :
    ((run_sectors research_fail_tech embed_one "d".toList sector_keys
        []).2.2.map Prod.fst = sector_keys ∧
      (run_sectors research_fail_tech embed_one "d".toList sector_keys
        []).2.1 =
        ((run_sectors research_fail_tech embed_one "d".toList sector_keys
          []).2.2.map Prod.snd).sum) ∧
    (0 : Nat) = 0 :=
  ⟨(C7_run_all_sectors research_fail_tech embed_one "d".toList).1
      sector_keys [],
    (C7_run_all_sectors research_fail_tech embed_one "d".toList).2.1
      sector_keys [] "technology" 0 (by decide) rfl⟩

/-- A loop step from a stopped state keeps the flag cleared and is never
the start of a cycle. -/
theorem sched_step_stopped {s : SchedState} {l : SchedLabel}
    {s' : SchedState} (h : SchedStep s l s') (hr : s.is_running = false) :
    s'.is_running = false ∧ l ≠ SchedLabel.beginCycle := by
  cases h <;> simp_all

/-- C8: in the scheduling loop, once `stop()` has taken effect
(`is_running = false`) no further cycle begins in any execution — in
particular a stop during the inter-cycle wait makes the loop exit before
the next cycle starts — while a cycle already in progress may still run to
completion (the finish step needs no flag). -/
theorem C8_stop_before_next_cycle :
    (∀ (s : SchedState) (tr : List SchedLabel) (s' : SchedState),
        SchedExec s tr s' → s.is_running = false →
        SchedLabel.beginCycle ∉ tr) ∧
    (∀ s : SchedState, s.pc = PC.cycle →
        SchedStep s SchedLabel.finishCycle { s with pc := PC.sleeping }) ∧
    SchedExec ⟨false, PC.sleeping⟩ [SchedLabel.wake, SchedLabel.exitLoop]
      ⟨false, PC.done⟩ := by
  refine ⟨?_, ?_, ?_⟩
  · intro s tr s' hexec
    induction hexec with
    | nil => intro _; simp
    | cons hstep hrest ih =>
      intro hr
      have hstop := sched_step_stopped hstep hr
      rw [List.mem_cons]
      push_neg
      exact ⟨fun he => hstop.2 he.symm, ih hstop.1⟩
  · intro s hpc
    exact SchedStep.finishCycle s hpc
  · exact SchedExec.cons (SchedStep.wake ⟨false, PC.sleeping⟩ rfl)
      (SchedExec.cons (SchedStep.exitLoop ⟨false, PC.check⟩ rfl rfl)
        (SchedExec.nil ⟨false, PC.done⟩))

theorem C8_stop_witness :
    SchedLabel.beginCycle ∉ [SchedLabel.wake, SchedLabel.exitLoop] ∧
    SchedStep ⟨false, PC.cycle⟩ SchedLabel.finishCycle
      ⟨false, PC.sleeping⟩ :=
  ⟨C8_stop_before_next_cycle.1 ⟨false, PC.sleeping⟩
      [SchedLabel.wake, SchedLabel.exitLoop] ⟨false, PC.done⟩
      C8_stop_before_next_cycle.2.2 rfl,
    C8_stop_before_next_cycle.2.1 ⟨false, PC.cycle⟩ rfl⟩

/-- C9: assuming the store's hybrid-similarity RPC honors its contract
(at most `match_count` rows, rows constrained to `category_filter` when one
is passed, ranked descending by similarity), `hybrid_search` with a
non-empty category returns only records of that category, at most `limit`
of them, in descending-similarity order; with no category it queries the
store with no category constraint. -/
theorem C9_hybrid_search_contract (embed : EmbedFn)
    (rpc : HybridParams → List StoredArticle) (sim : StoredArticle → ℚ)
    (hlen : ∀ p, (rpc p).length ≤ p.match_count)
    (hcat : ∀ p cf, p.category_filter = some cf →
      ∀ r ∈ rpc p, r.category = cf)
    (hrank : ∀ p, (rpc p).Chain' (fun x y => sim y ≤ sim x))
    (query : Str) (qe : List Int) (hq : embed query = some qe)
    (limit : Nat) :
    (∀ c : Str, c ≠ [] →
      ∃ l, hybrid_search embed rpc query (some c) limit = some l ∧
        (∀ r ∈ l, r.category = c) ∧ l.length ≤ limit ∧
        l.Chain' (fun x y => sim y ≤ sim x)) ∧
    hybrid_search embed rpc query none limit =
      some (rpc { query_embedding := qe, match_threshold := 78 / 100,
                  match_count := limit, category_filter := none }) := by
  constructor
  · intro c hc
    refine ⟨rpc { query_embedding := qe
                  match_threshold := 78 / 100
                  match_count := limit
                  category_filter := some c }, ?_, ?_, ?_, ?_⟩
    · simp [hybrid_search, hq, hc]
    · exact hcat _ c rfl
    · exact hlen _
    · exact hrank _
  · simp [hybrid_search, hq]

theorem C9_hybrid_search_witness :
    ∃ l, hybrid_search embed_one (fun _ => []) "q".toList
        (some "Finance".toList) 5 = some l ∧
      (∀ r ∈ l, r.category = "Finance".toList) ∧ l.length ≤ 5 ∧
      l.Chain' (fun x y => (fun _ : StoredArticle => (0 : ℚ)) y ≤
        (fun _ : StoredArticle => (0 : ℚ)) x) :=
  (C9_hybrid_search_contract embed_one (fun _ => [])
      (fun _ => (0 : ℚ)) (fun p => by simp) (fun p cf h r hr => by simp at hr)
      (fun p => by simp) "q".toList [1] rfl 5).1 "Finance".toList (by decide)

end Finlist
